import Mathlib

/-!
Verification of the EGFR calibration script
(`chen_sorger_2009_egfr_simplified/calibration_files/calibration_A431_highEGF.py`)
and the receptor-layer model module (`egfr/chen_modules.py`).

Numeric values (numpy float arrays) are embedded as rationals; 2-D numpy
arrays of shape (T, K) are embedded as `Matrix (Fin T) (Fin K) ℚ`; a numpy
record array is embedded as a total lookup `String → Fin T → ℚ` from field
name to time series.
-/

namespace EGFR

/-- Column-wise minimum of a matrix, `trajectories.min(0)` in numpy
(defined for a nonzero number of rows, as numpy's `min` errors on an
empty axis). -/
def colMin {T K : ℕ} [NeZero T] (M : Matrix (Fin T) (Fin K) ℚ) (k : Fin K) : ℚ :=
  haveI : Nonempty (Fin T) := Fin.pos_iff_nonempty.mp (Nat.pos_of_ne_zero (NeZero.ne T))
  Finset.univ.inf' Finset.univ_nonempty (fun t => M t k)

/-- Column-wise maximum of a matrix, `trajectories.max(0)` in numpy. -/
def colMax {T K : ℕ} [NeZero T] (M : Matrix (Fin T) (Fin K) ℚ) (k : Fin K) : ℚ :=
  haveI : Nonempty (Fin T) := Fin.pos_iff_nonempty.mp (Nat.pos_of_ne_zero (NeZero.ne T))
  Finset.univ.sup' Finset.univ_nonempty (fun t => M t k)

/-- `normalize(trajectories)` from the calibration script: rescale a matrix
of model trajectories to 0-1, `(trajectories - ymin) / (ymax - ymin)` with
`ymin = trajectories.min(0)` and `ymax = trajectories.max(0)` broadcast
column-wise. -/
def normalize {T K : ℕ} [NeZero T] (trajectories : Matrix (Fin T) (Fin K) ℚ) :
    Matrix (Fin T) (Fin K) ℚ :=
  let ymin := colMin trajectories
  let ymax := colMax trajectories
  Matrix.of fun t k => (trajectories t k - ymin k) / (ymax k - ymin k)

/-- `extract_records(recarray, names)` from the calibration script:
`numpy.vstack([recarray[name] for name in names]).T`.  `vstack` stacks the
selected time series as rows (one per name); the trailing transpose makes
them columns. -/
def extract_records {T : ℕ} (recarray : String → Fin T → ℚ) (names : List String) :
    Matrix (Fin T) (Fin names.length) ℚ :=
  (Matrix.of fun (k : Fin names.length) (t : Fin T) => recarray (names.get k) t).transpose

/-- `obs_names` from the calibration script: the observables scored against
the experimental data, in the data's column order. -/
def obs_names : List String := ["obsAKTPP", "obsErbB1_ErbB_P_CE", "obsERKPP"]

/-- `tspan` from the calibration script: 10 unevenly spaced time points. -/
def tspan : List ℚ := [0, 150, 300, 450, 600, 900, 1800, 2700, 3600, 7200]

/-- The `bayessb.MCMC` object as the likelihood function sees it: only its
`simulate(position, observables=True)` method is used, externally supplied
(it runs the ODE integrator at `position` and returns a record array of
observable trajectories over the 10 points of `tspan`). -/
structure MCMCSim (Pos : Type) where
  simulate : Pos → String → Fin 10 → ℚ

/-- `likelihood(mcmc, position)` from the calibration script: distance
between model trajectories and experimental data,
`numpy.sum((ydata_norm - ysim_norm) ** 2 / (2 * exp_var ** 2))`.
`ydata_norm` and `exp_var` are module-level arrays loaded from disk before
the run; they are passed here explicitly since file IO is external. -/
def likelihood {Pos : Type} (mcmc : MCMCSim Pos)
    (ydata_norm exp_var : Matrix (Fin 10) (Fin 3) ℚ) (position : Pos) : ℚ :=
  let ysim := mcmc.simulate position
  let ysim_array := extract_records ysim obs_names
  let ysim_norm := normalize ysim_array
  ∑ t, ∑ k, (ydata_norm t k - ysim_norm t k) ^ 2 / (2 * exp_var t k ^ 2)

/-- `prior_var = 6.0` from the calibration script (set so that, the
calculation being in log space, parameters can vary within 6 orders of
magnitude with little penalty). -/
def prior_var : ℚ := 6

/-- A PySB model parameter: a name and a nominal (literature) value. -/
structure Param where
  name : String
  value : ℚ
deriving DecidableEq

/-- `prior_mean` from the calibration script:
`[numpy.log10(p.value) for p in opts.estimate_params]`.  `numpy.log10` is
an external transcendental routine, passed in as `log10`. -/
def prior_mean (log10 : ℚ → ℚ) (estimate_params : List Param) : List ℚ :=
  estimate_params.map (fun p => log10 p.value)

/-- `prior(mcmc, position)` from the calibration script: distance to the
original parameter values,
`numpy.sum((position - prior_mean) ** 2 / (2 * prior_var))`.
The position and the prior mean are vectors of length `n` (one entry per
estimated parameter, in log10 space). -/
def prior {n : ℕ} (position priorMeanVec : Fin n → ℚ) : ℚ :=
  ∑ i, (position i - priorMeanVec i) ^ 2 / (2 * prior_var)

/-- The MCMC sampler state as the step callback sees it (fields of the
external `bayessb.MCMC` object read by `step`). -/
structure MCMCState where
  iter : ℕ
  sig_value : ℚ
  temp : ℚ
  acceptance : ℕ
  accept_likelihood : ℚ
  accept_prior : ℚ
  accept_posterior : ℚ

/-- The values interpolated into the statistics line printed by `step`. -/
structure StepStats where
  iter : ℕ
  sigma : ℚ
  temp : ℚ
  acc : ℚ
  lkl : ℚ
  priorV : ℚ
  post : ℚ
deriving DecidableEq

/-- `step(mcmc)` from the calibration script: print out some statistics
every 20 steps.  The `print` is external output; we return `some` of the
printed values when the guard `mcmc.iter % 20 == 0` holds and `none`
otherwise.  The acceptance figure is `float(mcmc.acceptance)/(mcmc.iter+1)`. -/
def step (mcmc : MCMCState) : Option StepStats :=
  if mcmc.iter % 20 = 0 then
    some { iter := mcmc.iter, sigma := mcmc.sig_value, temp := mcmc.temp,
           acc := (mcmc.acceptance : ℚ) / (mcmc.iter + 1),
           lkl := mcmc.accept_likelihood, priorV := mcmc.accept_prior,
           post := mcmc.accept_posterior }
  else none

/-- The PySB model as the calibration script uses it.
Modelled from the spec: the rule-based modeling library (PySB) is an
external collaborator; a model carries its rule rate parameters and its
initial-condition parameters as separate collections. -/
structure Model where
  rule_params : List Param
  initial_params : List Param

/-- Modelled from the spec: PySB's `model.parameters_rules()` returns the
parameters appearing in the model's rules (the kinetic rate parameters),
not the initial-condition parameters. -/
def Model.parameters_rules (m : Model) : List Param :=
  m.rule_params

/-- The `bayessb.MCMCOpts` fields set by the calibration script. -/
structure MCMCOpts where
  tspan : List ℚ
  integrator : String
  nsteps : ℕ
  estimate_params : List Param
  use_hessian : Bool
  hessian_period : ℚ
  seed : ℕ
  atol : ℚ
  rtol : ℚ
  intsteps : ℕ
  with_jacobian : Bool

/-- The options object as configured by the script before the scenario
block: `opts.tspan = tspan`, `opts.integrator = 'vode'`,
`opts.nsteps = 50000` (estimation fields still at their defaults; the later
assignments `seed = 1`, `atol = 1e-6`, `rtol = 1e-3`, `intsteps = 5000`,
`with_jacobian = True` are included here). -/
def mkOpts : MCMCOpts :=
  { tspan := tspan
    integrator := "vode"
    nsteps := 50000
    estimate_params := []
    use_hessian := false
    hessian_period := 0
    seed := 1
    atol := 1 / 1000000
    rtol := 1 / 1000
    intsteps := 5000
    with_jacobian := true }

/-- `scenario = 1` from the calibration script: the default estimation
scenario. -/
def scenario : ℕ := 1

/-- The `if scenario == 1 / elif scenario == 2 / else` block of the
calibration script.  Scenario 1 estimates rates only (not initial
conditions); scenario 2 additionally turns on hessian guidance; any other
value raises `RuntimeError("unknown scenario number")`. -/
def applyScenario (sc : ℕ) (model : Model) (opts : MCMCOpts) :
    Except String MCMCOpts :=
  if sc = 1 then
    Except.ok { opts with estimate_params := model.parameters_rules }
  else if sc = 2 then
    Except.ok { opts with
                  estimate_params := model.parameters_rules
                  use_hessian := true
                  hessian_period := (opts.nsteps : ℚ) / 6 }
  else
    Except.error "unknown scenario number"

/-- The finished `bayessb.MCMC` object as the post-run code reads it:
`get_mixed_accepts(burn=...)` (raw posterior samples after burn-in),
`cur_params()` (full current parameter vector) and `estimate_idx` (indices
of the estimated parameters within it), all computed by the external
sampler. -/
structure MCMCRun where
  get_mixed_accepts : ℕ → List (List ℚ)
  cur_params : List ℚ
  estimate_idx : List ℕ

/-- Numpy fancy indexing `xs[idx]` of a 1-D array by an index list. -/
def fancyIndex (xs : List ℚ) (idx : List ℕ) : List ℚ :=
  idx.map (fun i => xs.getD i 0)

/-- `mcmc.cur_params()[mcmc.estimate_idx]` from the calibration script. -/
def fitted_values (mcmc : MCMCRun) : List ℚ :=
  fancyIndex mcmc.cur_params mcmc.estimate_idx

/-- A value serialized by `numpy.save`. -/
inductive Saved : Type where
  | positions (samples : List (List ℚ))
  | fitted (pairs : List (Param × ℚ))

/-- The two `numpy.save` calls at the end of the calibration script, as
(filename, value) pairs in program order:
`numpy.save('calibration_allpositions_A431_highEGF.npy',
            mcmc.get_mixed_accepts(burn=opts.nsteps/10))` and
`numpy.save('calibration_fittedparams_A431_highEGF.npy',
            list(zip(opts.estimate_params, mcmc.cur_params()[mcmc.estimate_idx])))`. -/
def save_outputs (opts : MCMCOpts) (mcmc : MCMCRun) : List (String × Saved) :=
  [("calibration_allpositions_A431_highEGF.npy",
      Saved.positions (mcmc.get_mixed_accepts (opts.nsteps / 10))),
   ("calibration_fittedparams_A431_highEGF.npy",
      Saved.fitted (opts.estimate_params.zip (fancyIndex mcmc.cur_params mcmc.estimate_idx)))]

/-! Rate constants from the top of `egfr/chen_modules.py` (floats embedded
as exact rationals). -/

def KF : ℚ := 1 / 1000000
def KR : ℚ := 1 / 1000
def KC : ℚ := 1
def KDIMF : ℚ := 1 / 1000000
def KDIMR : ℚ := 1 / 1000
def KINTF : ℚ := 1 / 1000
def KINTR : ℚ := 5 / 100000
def KDEG : ℚ := 1 / 10

/-- Phosphorylation state of a receptor site (`st` in {'U', 'P'}). -/
inductive PState : Type where
  | U
  | P
deriving DecidableEq

/-- One rule produced by the cross-phosphorylation loop of `rec_events`:
`ATP(b=1) % erbb(ty=i, b=1, bd=2, bl=ANY) % erbb(ty=j, bd=2, st='U') >>
 ADP() + erbb(ty=i, b=None, bd=2, bl=ANY) % erbb(ty=j, bd=2, st='P')`
with rate `Parameter("kcp"+i+j, KC)`: ATP bound to the ATP-bearing
receptor `i`, dimerized with receptor `j` in state 'U', is converted to
ADP while `j` goes to state 'P'. -/
structure CrossRule : Type where
  name : String
  atpBearer : String
  target : String
  targetPre : PState
  targetPost : PState
  consumesATP : Bool
  producesADP : Bool
  rateName : String
  rate : ℚ
deriving DecidableEq

/-- The rows of the ATP `bind_table` in `rec_events`: ATP only binds to
dimerized receptors of types 1, 2 and 4. -/
def atp_binders : List String := ["1", "2", "4"]

/-- The receptor types appearing as dimer partners (`j` in the loop). -/
def partner_types : List String := ["1", "2", "3", "4"]

/-- The `for i in ['1','2','4']: for j in ['1','2','3','4']:` loop of
`rec_events`, generating one `Rule("cross_phospho_"+i+"_"+j, ...)` per
ordered pair. -/
def cross_phospho_rules : List CrossRule :=
  atp_binders.flatMap (fun i =>
    partner_types.map (fun j =>
      { name := "cross_phospho_" ++ i ++ "_" ++ j
        atpBearer := i
        target := j
        targetPre := PState.U
        targetPost := PState.P
        consumesATP := true
        producesADP := true
        rateName := "kcp" ++ i ++ j
        rate := KC }))

/-- Membrane location of a receptor (`loc` in {'C', 'E'}: cytoplasmic
membrane or endosomal membrane). -/
inductive Loc : Type where
  | C
  | E
deriving DecidableEq

/-- The location behaviour of one rule of `rec_events`, as read off the
rule's reactant and product patterns: `locPre` is the location the
reactant pattern requires of the receptor(s) (`none` when the pattern
leaves `loc` unconstrained), `locPost` is the location the product pattern
sets (`none` when the rule leaves `loc` unchanged), and `degrades` marks
the `degrade(...)` rule, whose product is nothing. -/
structure RecRule : Type where
  name : String
  locPre : Option Loc
  locPost : Option Loc
  degrades : Bool
deriving DecidableEq

/-- Forward direction of `Rule("rec_intern", erbb(bd=1, loc="C") %
erbb(bd=1, loc='C') <> erbb(bd=1, loc="E") % erbb(bd=1, loc="E"), ...)`:
a cell-membrane dimer moves to the endosome. -/
def rec_intern_fwd : RecRule :=
  { name := "rec_intern", locPre := some Loc.C, locPost := some Loc.E, degrades := false }

/-- Reverse direction of the reversible `rec_intern` rule: an endosomal
dimer recycles back to the cell membrane. -/
def rec_intern_rev : RecRule :=
  { name := "rec_intern", locPre := some Loc.E, locPost := some Loc.C, degrades := false }

/-- `degrade(erbb(bd=1, loc="E") % erbb(bd=1, loc="E"), Parameter("kdeg",
KDEG))` from `rec_events`: degrades all receptor combos within an
endosome (both dimer members at loc 'E'). -/
def rec_degrade : RecRule :=
  { name := "kdeg_degrade", locPre := some Loc.E, locPost := none, degrades := true }

/-- The ligand-binding `bind_table` of `rec_events`: EGF binds erbb1, HRG
binds erbb3 and erbb4, each pattern requiring `loc='C'`; PySB expands each
table entry into a reversible pair of rules, neither changing `loc`. -/
def ligand_bind_rules : List RecRule :=
  [("EGF", "1"), ("HRG", "3"), ("HRG", "4")].flatMap (fun p =>
    [{ name := "bind_" ++ p.1 ++ "_erbb" ++ p.2,
       locPre := some Loc.C, locPost := none, degrades := false },
     { name := "unbind_" ++ p.1 ++ "_erbb" ++ p.2,
       locPre := some Loc.C, locPost := none, degrades := false }])

/-- The dimerization `bind_table` of `rec_events`: the 7 allowed type
pairs (1-1, 2-1, 2-2, 3-1, 3-2, 4-1, 4-2), each pattern requiring
`loc='C'`, each reversible, neither direction changing `loc`. -/
def dimerize_rules : List RecRule :=
  [("1", "1"), ("2", "1"), ("2", "2"), ("3", "1"), ("3", "2"), ("4", "1"), ("4", "2")].flatMap
    (fun p =>
      [{ name := "dimerize_" ++ p.1 ++ "_" ++ p.2,
         locPre := some Loc.C, locPost := none, degrades := false },
       { name := "undimerize_" ++ p.1 ++ "_" ++ p.2,
         locPre := some Loc.C, locPost := none, degrades := false }])

/-- The ATP `bind_table` of `rec_events`: ATP reversibly binds dimerized
receptors of types 1, 2 and 4, each pattern requiring `loc='C'`, neither
direction changing `loc`. -/
def atp_bind_rules : List RecRule :=
  atp_binders.flatMap (fun i =>
    [{ name := "bind_ATP_erbb" ++ i,
       locPre := some Loc.C, locPost := none, degrades := false },
     { name := "unbind_ATP_erbb" ++ i,
       locPre := some Loc.C, locPost := none, degrades := false }])

/-- The cross-phosphorylation rules seen through their location behaviour:
their patterns do not mention `loc`, so they apply anywhere and leave
`loc` unchanged. -/
def cross_phospho_loc_rules : List RecRule :=
  cross_phospho_rules.map (fun r =>
    { name := r.name, locPre := none, locPost := none, degrades := false })

/-- The dephosphorylation loop of `rec_events` (`for i in
['1','2','3','4']`): a reversible DEP-binding rule `dephospho_i_4` and a
catalysis rule `dephosphoC_i_4` per type (the `_4` suffix is the leftover
loop variable `j` from the preceding loop); no pattern mentions `loc`. -/
def dephospho_rules : List RecRule :=
  partner_types.flatMap (fun i =>
    [{ name := "dephospho_" ++ i ++ "_4",
       locPre := none, locPost := none, degrades := false },
     { name := "dephospho_" ++ i ++ "_4_rev",
       locPre := none, locPost := none, degrades := false },
     { name := "dephosphoC_" ++ i ++ "_4",
       locPre := none, locPost := none, degrades := false }])

/-- All rules declared by `rec_events`, in source order, with their
location behaviour. -/
def rec_event_rules : List RecRule :=
  ligand_bind_rules ++ dimerize_rules ++ atp_bind_rules ++
    cross_phospho_loc_rules ++ dephospho_rules ++
    [rec_intern_fwd, rec_intern_rev, rec_degrade]

/-- The fate of one receptor dimer tracked through the reaction network:
alive at a location, or degraded. -/
inductive DimerState : Type where
  | alive (l : Loc)
  | degraded
deriving DecidableEq

/-- Apply one rule of `rec_events` to a tracked dimer: the rule fires only
if the dimer is alive and its location matches the rule's reactant
pattern; firing degrades the dimer or moves it to the product location. -/
def applyRule (r : RecRule) : DimerState → Option DimerState
  | DimerState.degraded => none
  | DimerState.alive l =>
      if r.locPre = none ∨ r.locPre = some l then
        some (if r.degrades then DimerState.degraded
              else DimerState.alive (r.locPost.getD l))
      else none

/-- Run a sequence of rule firings on a tracked dimer. -/
def runTrace (events : List RecRule) (s : DimerState) : Option DimerState :=
  events.foldlM (fun st r => applyRule r st) s

/-- A concrete 2-by-1 trajectory matrix used to evaluate `normalize` on a
non-constant column. -/
def M0 : Matrix (Fin 2) (Fin 1) ℚ :=
  Matrix.of fun t _ => if t.val = 0 then 0 else 1

/-- A concrete model with one rate parameter and one initial-condition
parameter, used to evaluate the scenario selection. -/
def model0 : Model :=
  { rule_params := [{ name := "kf", value := 1 }],
    initial_params := [{ name := "EGF_0", value := 1000 }] }

end EGFR

namespace EGFR

/-- C9: `extract_records(recarray, names)` returns a 2-D array (with
`names.length` columns, visible in its type) whose entry at row `t` and
column `k` is `recarray[names[k]][t]`: columns follow the order of
`names`, rows follow the record order. -/
theorem C9_extract_records_columns {T : ℕ} (recarray : String → Fin T → ℚ)
    (names : List String) (t : Fin T) (k : Fin names.length) :
    extract_records recarray names t k = recarray (names.get k) t :=
  rfl

/-- C1: at every position, `likelihood` simulates at the position, extracts
the observables `obs_names` = `['obsAKTPP', 'obsErbB1_ErbB_P_CE',
'obsERKPP']`, rescales them to 0-1 with `normalize`, and returns
`sum((ydata_norm - ysim_norm)^2 / (2 * exp_var^2))` against the fixed data
and standard deviations it was given. -/
theorem C1_likelihood_gaussian {Pos : Type} (mcmc : MCMCSim Pos)
    (ydata_norm exp_var : Matrix (Fin 10) (Fin 3) ℚ) (position : Pos) :
    (likelihood mcmc ydata_norm exp_var position =
      ∑ t, ∑ k, (ydata_norm t k -
          normalize (extract_records (mcmc.simulate position) obs_names) t k) ^ 2 /
        (2 * exp_var t k ^ 2)) ∧
    obs_names = ["obsAKTPP", "obsErbB1_ErbB_P_CE", "obsERKPP"] :=
  ⟨rfl, rfl⟩

/-- C2: `prior` is a log-space Gaussian penalty: the prior mean is log10 of
each estimated parameter's nominal value, and the score is
`sum((position - prior_mean)^2 / (2 * prior_var))` with `prior_var = 6`. -/
theorem C2_prior_logspace_gaussian (log10 : ℚ → ℚ) (ps : List Param)
    (position : Fin ps.length → ℚ) :
    (prior position
        (fun i => (prior_mean log10 ps).get
          ⟨i.val, by simp [prior_mean]⟩) =
      ∑ i, (position i - log10 (ps.get i).value) ^ 2 / (2 * prior_var)) ∧
    prior_var = 6 := by
  refine ⟨Finset.sum_congr rfl fun i _ => ?_, rfl⟩
  simp [prior_mean]

end EGFR

namespace EGFR

/-- C3: under the default estimation scenario (`scenario = 1`), the
scenario block succeeds and sets the estimated parameters to exactly
`model.parameters_rules()`; when the model's initial-condition parameters
are distinct from its rule parameters (as PySB guarantees for this model),
no initial-condition parameter is estimated. -/
theorem C3_scenario1_rates_only (m : Model) (o : MCMCOpts)
    (hdisj : ∀ p ∈ m.initial_params, p ∉ m.rule_params) :
    ∃ o2, applyScenario scenario m o = Except.ok o2 ∧
      o2.estimate_params = m.parameters_rules ∧
      ∀ p ∈ m.initial_params, p ∉ o2.estimate_params :=
  ⟨{ o with estimate_params := m.parameters_rules }, rfl, rfl, hdisj⟩

theorem C3_scenario1_rates_only_witness :
    ∃ o2, applyScenario scenario model0 mkOpts = Except.ok o2 ∧
      o2.estimate_params = model0.parameters_rules ∧
      ∀ p ∈ model0.initial_params, p ∉ o2.estimate_params :=
  C3_scenario1_rates_only model0 mkOpts (by decide)

/-- C4: the run is configured with `opts.nsteps = 50000` over the fixed
10-point `tspan`, and the likelihood at any position is entirely a
function of the trajectories returned by the external solver call
`mcmc.simulate(position)`, scored against the data. -/
theorem C4_run_configuration :
    mkOpts.nsteps = 50000 ∧
    mkOpts.tspan = [0, 150, 300, 450, 600, 900, 1800, 2700, 3600, 7200] ∧
    mkOpts.tspan.length = 10 ∧
    ∀ (Pos : Type) (mcmc : MCMCSim Pos) (ydata exp_var : Matrix (Fin 10) (Fin 3) ℚ)
      (position : Pos),
      likelihood mcmc ydata exp_var position =
        ∑ t, ∑ k, (ydata t k -
            normalize (extract_records (mcmc.simulate position) obs_names) t k) ^ 2 /
          (2 * exp_var t k ^ 2) :=
  ⟨rfl, rfl, rfl, fun _ _ _ _ _ => rfl⟩

/-- C5: the step callback reports statistics exactly when the iteration
number is divisible by 20, and the acceptance rate it reports is the
accepted-move count divided by `iter + 1`. -/
theorem C5_step_every_20 (m : MCMCState) :
    ((step m).isSome ↔ m.iter % 20 = 0) ∧
    (∀ s, step m = some s →
      s.iter = m.iter ∧ s.acc = (m.acceptance : ℚ) / (m.iter + 1)) ∧
    (m.iter % 20 ≠ 0 → step m = none) := by
  by_cases h : m.iter % 20 = 0 <;> simp [step, h]

theorem C5_step_every_20_witness :
    (step { iter := 40, sig_value := 1, temp := 1, acceptance := 10,
            accept_likelihood := 1, accept_prior := 1,
            accept_posterior := 1 }).isSome ∧
    step { iter := 41, sig_value := 1, temp := 1, acceptance := 10,
           accept_likelihood := 1, accept_prior := 1,
           accept_posterior := 1 } = none :=
  ⟨(C5_step_every_20 _).1.mpr (by decide), (C5_step_every_20 _).2.2 (by decide)⟩

/-- C6: after the run, the script saves exactly two files: the raw
posterior samples `mcmc.get_mixed_accepts(burn=opts.nsteps/10)` (with
`nsteps/10 = 5000` iterations discarded as burn-in) to
`calibration_allpositions_A431_highEGF.npy`, and the pairs of each
estimated parameter with its fitted value
`mcmc.cur_params()[mcmc.estimate_idx]` to
`calibration_fittedparams_A431_highEGF.npy`. -/
theorem C6_serialization (ps : List Param) (mcmc : MCMCRun) :
    save_outputs { mkOpts with estimate_params := ps } mcmc =
      [("calibration_allpositions_A431_highEGF.npy",
          Saved.positions (mcmc.get_mixed_accepts (mkOpts.nsteps / 10))),
       ("calibration_fittedparams_A431_highEGF.npy",
          Saved.fitted (ps.zip (fitted_values mcmc)))] ∧
    mkOpts.nsteps / 10 = 5000 :=
  ⟨rfl, rfl⟩

/-- C7: the cross-phosphorylation loop declares exactly 12 rules, one per
ordered pair (i, j) with i among the ATP binders {1, 2, 4} and j among
{1, 2, 3, 4}, each named `cross_phospho_i_j`, converting ATP on receptor
i dimerized with receptor j in state 'U' into ADP with j in state 'P', at
literal rate constant `KC = 1` under parameter name `kcp i j`. -/
theorem C7_cross_phospho_rules :
    cross_phospho_rules.length = 12 ∧
    atp_binders = ["1", "2", "4"] ∧
    partner_types = ["1", "2", "3", "4"] ∧
    KC = 1 ∧
    (∀ i ∈ atp_binders, ∀ j ∈ partner_types,
      ∃ r ∈ cross_phospho_rules,
        r.name = "cross_phospho_" ++ i ++ "_" ++ j ∧
        r.atpBearer = i ∧ r.target = j) ∧
    (∀ r ∈ cross_phospho_rules,
      r.atpBearer ∈ atp_binders ∧ r.target ∈ partner_types ∧
      r.targetPre = PState.U ∧ r.targetPost = PState.P ∧
      r.consumesATP = true ∧ r.producesADP = true ∧
      r.rate = KC ∧ r.rateName = "kcp" ++ r.atpBearer ++ r.target) := by
  decide

end EGFR

namespace EGFR

/-- C8: whenever every column of the input is non-constant (its maximum
strictly exceeds its minimum), `normalize` returns a matrix of the same
shape (visible in its type) with every entry in [0, 1], sending each
column's minimum to 0 and its maximum to 1, and the divisor
`ymax - ymin` is never zero. -/
theorem C8_normalize_bounds {T K : ℕ} [NeZero T] (M : Matrix (Fin T) (Fin K) ℚ)
    (h : ∀ k, colMin M k < colMax M k) :
    (∀ t k, 0 ≤ normalize M t k ∧ normalize M t k ≤ 1) ∧
    (∀ k, ∃ t, M t k = colMin M k ∧ normalize M t k = 0) ∧
    (∀ k, ∃ t, M t k = colMax M k ∧ normalize M t k = 1) ∧
    (∀ k, colMax M k - colMin M k ≠ 0) := by
  have hnorm : ∀ t k, normalize M t k =
      (M t k - colMin M k) / (colMax M k - colMin M k) := fun _ _ => rfl
  have hmin : ∀ t k, colMin M k ≤ M t k := by
    intro t k
    unfold colMin
    exact Finset.inf'_le _ (Finset.mem_univ t)
  have hmax : ∀ t k, M t k ≤ colMax M k := by
    intro t k
    unfold colMax
    exact Finset.le_sup' (fun t => M t k) (Finset.mem_univ t)
  have hpos : ∀ k, 0 < colMax M k - colMin M k := fun k => sub_pos.mpr (h k)
  refine ⟨fun t k => ?_, fun k => ?_, fun k => ?_, fun k => (hpos k).ne'⟩
  · rw [hnorm]
    exact ⟨div_nonneg (sub_nonneg.mpr (hmin t k)) (hpos k).le,
           (div_le_one (hpos k)).mpr (sub_le_sub_right (hmax t k) _)⟩
  · haveI : Nonempty (Fin T) := Fin.pos_iff_nonempty.mp (Nat.pos_of_ne_zero (NeZero.ne T))
    obtain ⟨t, -, ht⟩ := Finset.exists_mem_eq_inf' Finset.univ_nonempty (fun t => M t k)
    have hc : colMin M k = M t k := ht
    refine ⟨t, hc.symm, ?_⟩
    rw [hnorm, ← hc, sub_self, zero_div]
  · haveI : Nonempty (Fin T) := Fin.pos_iff_nonempty.mp (Nat.pos_of_ne_zero (NeZero.ne T))
    obtain ⟨t, -, ht⟩ := Finset.exists_mem_eq_sup' Finset.univ_nonempty (fun t => M t k)
    have hc : colMax M k = M t k := ht
    refine ⟨t, hc.symm, ?_⟩
    rw [hnorm, ← hc, div_self (hpos k).ne']

theorem C8_normalize_bounds_witness :
    (∀ k, colMin M0 k < colMax M0 k) ∧
    (∀ t k, 0 ≤ normalize M0 t k ∧ normalize M0 t k ≤ 1) ∧
    (∀ k, colMax M0 k - colMin M0 k ≠ 0) := by
  have hlt : ∀ k, colMin M0 k < colMax M0 k := by decide
  obtain ⟨h1, -, -, h2⟩ := C8_normalize_bounds M0 hlt
  exact ⟨hlt, h1, h2⟩

end EGFR

namespace EGFR

/-- Every `rec_events` rule other than the forward internalization either
leaves a cell-membrane dimer alive at the cell membrane or does not fire
on it at all. -/
theorem applyRule_at_C_no_intern :
    ∀ r ∈ rec_event_rules, r ≠ rec_intern_fwd →
      applyRule r (DimerState.alive Loc.C) = some (DimerState.alive Loc.C) ∨
      applyRule r (DimerState.alive Loc.C) = none := by
  decide

/-- A trace of `rec_events` rules that never fires the forward
internalization keeps a cell-membrane dimer at the cell membrane (or gets
stuck). -/
theorem runTrace_no_intern_stays (es : List RecRule)
    (hes : ∀ r ∈ es, r ∈ rec_event_rules) (hni : rec_intern_fwd ∉ es) :
    runTrace es (DimerState.alive Loc.C) = some (DimerState.alive Loc.C) ∨
    runTrace es (DimerState.alive Loc.C) = none := by
  induction es with
  | nil => left; rfl
  | cons r es ih =>
    have hr : r ∈ rec_event_rules := hes r (List.mem_cons_self r es)
    have hne : r ≠ rec_intern_fwd := fun hEq => hni (hEq ▸ List.mem_cons_self r es)
    have hes2 : ∀ x ∈ es, x ∈ rec_event_rules :=
      fun x hx => hes x (List.mem_cons_of_mem r hx)
    have hni2 : rec_intern_fwd ∉ es := fun hx => hni (List.mem_cons_of_mem r hx)
    rcases applyRule_at_C_no_intern r hr hne with h1 | h1
    · have hstep : runTrace (r :: es) (DimerState.alive Loc.C) =
          runTrace es (DimerState.alive Loc.C) := by
        simp [runTrace, List.foldlM_cons, h1]
      rw [hstep]
      exact ih hes2 hni2
    · right
      simp [runTrace, List.foldlM_cons, h1]

/-- C10: in the receptor layer, (1) the only degrading rule requires its
dimer to be in the endosome, (2) the only rule whose product is in the
endosome is the forward internalization, and (3) along any sequence of
`rec_events` rule firings, a dimer starting at the cell membrane is never
degraded unless the forward internalization fired first. -/
theorem C10_degrade_requires_internalization :
    (∀ r ∈ rec_event_rules, r.degrades = true → r.locPre = some Loc.E) ∧
    (∀ r ∈ rec_event_rules, r.locPost = some Loc.E → r = rec_intern_fwd) ∧
    (∀ es : List RecRule, (∀ r ∈ es, r ∈ rec_event_rules) →
      rec_intern_fwd ∉ es →
      runTrace es (DimerState.alive Loc.C) ≠ some DimerState.degraded) := by
  refine ⟨by decide, by decide, fun es hes hni => ?_⟩
  rcases runTrace_no_intern_stays es hes hni with h | h <;> simp [h]

theorem C10_degrade_requires_internalization_witness :
    runTrace [rec_intern_rev, rec_degrade] (DimerState.alive Loc.C) ≠
      some DimerState.degraded :=
  C10_degrade_requires_internalization.2.2 [rec_intern_rev, rec_degrade]
    (by decide) (by decide)

end EGFR
